import Mathlib

set_option maxRecDepth 8000

/-!
A shallow embedding of the BakeLang interpreter (`BakeLangInterpret.py`):
the lexer (`tokenize`), the recursive-descent parser (class `Parser`) and
the tree-walking evaluator (the `eval` methods of the AST node classes),
together with theorems checking the natural-language specification
against this embedding.

Python's machine-level details are modelled as follows: Python `int` is
unbounded, so it becomes `Int`; Python strings become `String`; the
mutable environment dictionary becomes an association list threaded
through the evaluator; exceptions become an error sum type; `print` and
`input` become an explicit effects record (pending stdin lines plus the
text written to stdout so far).  Native recursion depth (Python raises
`RecursionError` past its limit) is modelled by a fuel parameter that is
spent on recipe calls.
-/

namespace BakeLang

/-- Token values in the Python code are `int` (NUMBER tokens), `str`
(all other tokens) or `None` (the EOF token). -/
inductive TkVal where
  | int (i : Int)
  | str (s : String)
  | pyNone
  deriving DecidableEq, Repr

/-- `Token(type, value)` from the source.  Symbol tokens use the symbol
itself as the type, exactly as `Token(val, val)` does. -/
structure Token where
  type : String
  value : TkVal
  deriving DecidableEq, Repr

/-- The error taxonomy.  The Python code signals these as `SyntaxError`
(lex and parse errors, unknown operator), `NameError` (undefined
variable, recipe not found), `TypeError` (arity mismatch and operations
on unsupported operand types), `ZeroDivisionError`, `EOFError` (input
exhausted) and `RecursionError` (modelled by `outOfFuel`). -/
inductive Err where
  | lexError (c : Char)
  | parseError (expected : String) (expectedVal : Option TkVal) (got : Token)
  | unknownStmt (got : TkVal)
  | unexpectedTok (got : Token)
  | unknownOp (op : String)
  | undefinedVariable (name : String)
  | recipeNotFound (name : String)
  | arityMismatch (name : String) (expected got : Nat)
  | typeError (msg : String)
  | divByZero
  | eofError
  | keyError (k : String)
  | outOfFuel
  deriving DecidableEq, Repr

/-! ### Lexer -/

/-- Identifier pattern `[A-Za-z_]\w*`: first character. -/
def isNameStart (c : Char) : Bool := c.isAlpha || c = '_'

/-- Identifier pattern `[A-Za-z_]\w*`: continuation character. -/
def isNameChar (c : Char) : Bool := c.isAlphanum || c = '_'

/-- Whitespace skipped by the lexer: the class `[ \t\n]`. -/
def isWs (c : Char) : Bool := c = ' ' || c = '\t' || c = '\n'

/-- The symbol class `[;:{}(),]`. -/
def isSym (c : Char) : Bool :=
  c = ';' || c = ':' || c = '{' || c = '}' || c = '(' || c = ')' || c = ','

/-- Python `int(val)` applied to a run of decimal digits. -/
def digitsToNat (ds : List Char) : Nat :=
  ds.foldl (fun a c => 10 * a + (c.toNat - '0'.toNat)) 0

/-- One pass of `tokenize`'s scanning loop.  At each position the fixed
pattern list (number, string, name, operators, symbols, whitespace) is
tried; every success consumes at least one character, so the remaining
length is fuel enough.  A character matching no pattern is a lex error,
as is an unterminated or backslash-containing string literal (the STR
pattern `"([^\\"]*)"` excludes backslashes, and no other pattern can
start at the quote). -/
def lexGo : Nat → List Char → Except Err (List Token)
  | _, [] => .ok [⟨"EOF", TkVal.pyNone⟩]
  | 0, c :: _ => .error (.lexError c)
  | fuel + 1, c :: cs =>
    if c.isDigit then
      let (ds, rest) := List.span Char.isDigit (c :: cs)
      do let ts ← lexGo fuel rest
         .ok (⟨"NUMBER", TkVal.int (digitsToNat ds)⟩ :: ts)
    else if c = '"' then
      match List.span (fun ch => ch != '\\' && ch != '"') cs with
      | (content, '"' :: rest) =>
          do let ts ← lexGo fuel rest
             .ok (⟨"STRING", TkVal.str (String.mk content)⟩ :: ts)
      | _ => .error (.lexError '"')
    else if isNameStart c then
      let (nm, rest) := List.span isNameChar (c :: cs)
      do let ts ← lexGo fuel rest
         .ok (⟨"ID", TkVal.str (String.mk nm)⟩ :: ts)
    else if c = '=' then
      match cs with
      | '=' :: rest =>
          do let ts ← lexGo fuel rest
             .ok (⟨"OP", TkVal.str "=="⟩ :: ts)
      | _ => .error (.lexError c)
    else if c = '%' || c = '+' then
      do let ts ← lexGo fuel cs
         .ok (⟨"OP", TkVal.str (String.mk [c])⟩ :: ts)
    else if isSym c then
      do let ts ← lexGo fuel cs
         .ok (⟨String.mk [c], TkVal.str (String.mk [c])⟩ :: ts)
    else if isWs c then
      let (_, rest) := List.span isWs (c :: cs)
      lexGo fuel rest
    else
      .error (.lexError c)

/-- `tokenize(source)`: scan left to right, append the final EOF token. -/
def tokenize (source : String) : Except Err (List Token) :=
  lexGo source.length source.data

/-! ### AST -/

/-- Expression nodes: `Number`, `String`, `Var`, `BinOp` (with the
operator kept as its token text, exactly as in the source). -/
inductive Expr where
  | num (v : Int)
  | str (v : String)
  | var (n : String)
  | binOp (left : Expr) (op : String) (right : Expr)
  deriving DecidableEq, Repr

/-- Statement nodes.  `mix` covers both the `mix` and `fold` keywords
(the parser builds the same `MixStmt` for either).  `ifS.elseB` is
`none` when no `else` block was written, mirroring `else_s=None`. -/
inductive Stmt where
  | ingredient (name ty : String)
  | mix (e : Expr) (target : String)
  | serve (e : Expr)
  | ask (prompt : Expr) (target : String)
  | ifS (cond : Expr) (thenB : List Stmt) (elseB : Option (List Stmt))
  | make (name : String) (args : List Expr)
  | repeatS (start stop : Expr) (body : List Stmt)

/-- `RecipeDef(name, params, body)`. -/
structure Recipe where
  name : String
  params : List String
  body : List Stmt

/-- `Program(recipes, main_stmts)`. -/
structure Program where
  recipes : List Recipe
  main : List Stmt

/-- A runtime value.  The environment dictionary maps names to Python
values; besides integers and strings, the reserved key `__recipes__`
holds the procedure table — itself an ordinary dictionary value, so a
`Var` read of that key yields it.  `table` models that dictionary as an
association list from recipe name to `(params, body)`. -/
inductive Value where
  | int (i : Int)
  | str (s : String)
  | table (t : List (String × (List String × List Stmt)))

/-- The procedure table: recipe name to `(params, body)`. -/
abbrev Table := List (String × (List String × List Stmt))

/-- The environment: a Python dict from name to value, where a binding
may hold `none` — the uninitialized sentinel `None` that
`ingredient` declarations install. -/
abbrev Env := List (String × Option Value)

/-- Python dict read `d[k]` / `k in d` on an insertion-ordered
association list. -/
def dictGet {α : Type} : List (String × α) → String → Option α
  | [], _ => Option.none
  | (k, v) :: rest, key => if k = key then some v else dictGet rest key

/-- Python dict write `d[k] = v`: updates the existing entry in place,
or appends a new one. -/
def dictSet {α : Type} : List (String × α) → String → α → List (String × α)
  | [], key, v => [(key, v)]
  | (k, w) :: rest, key, v =>
      if k = key then (key, v) :: rest else (k, w) :: dictSet rest key v

/-- Python `str(value)` as used by `print` and string coercion in `+`.
`str` of an integer is its ordinary decimal form.  The procedure table's
Python `str` would be the dict repr including object addresses of the
AST nodes, which has no pure counterpart; no theorem below depends on
that case. -/
def pyStr : Value → String
  | .int i => toString i
  | .str s => s
  | .table _ => "<recipes table>"

/-- `isinstance(v, str)`. -/
def isStr : Value → Bool
  | .str _ => true
  | _ => false

/-- Python truthiness of a value, as tested by `if self.cond.eval(env):`
— zero and the empty string (and the empty dict) are falsy, everything
else is truthy. -/
def pyTruthy : Value → Bool
  | .int i => i != 0
  | .str s => s != ""
  | .table t => !t.isEmpty

/-- Python `a == b` on runtime values.  Integers and strings compare
structurally; values of different types compare unequal (`1 == "1"` is
false).  Exactly one procedure-table dictionary exists per run and is
only ever passed by reference, so a table-to-table comparison is always
the shared dict against itself: Python answers `True`, and so does this
function. -/
def valueEqB : Value → Value → Bool
  | .int x, .int y => x == y
  | .str s, .str t => s == t
  | .table _, .table _ => true
  | _, _ => false

/-! ### Expression evaluation -/

/-- The operator dispatch of `BinOp.eval`, applied to the two already
evaluated operands.
`+`: if either operand is a string both are coerced with `str` and
concatenated, otherwise the operands are added (a type error unless both
are integers).
`%`: integer floored modulo (Python's `%`, which is `Int.fmod`), with
`ZeroDivisionError` on a zero divisor; a string left operand would
trigger Python's printf-style formatting, which the specification
declares undefined by design, so non-integer operands are modelled as a
type error.
`==`: `int(a == b)` — structural comparison (the only reachable
table-to-table comparison is the unique shared table against itself, for
which structural and identity comparison agree). -/
def evalBinOp (op : String) (a b : Value) : Except Err Value :=
  if op = "+" then
    if isStr a || isStr b then .ok (.str (pyStr a ++ pyStr b))
    else
      match a, b with
      | .int x, .int y => .ok (.int (x + y))
      | _, _ => .error (.typeError "unsupported operand types for +")
  else if op = "%" then
    match a, b with
    | .int x, .int y =>
        if y = 0 then .error .divByZero else .ok (.int (Int.fmod x y))
    | _, _ => .error (.typeError "unsupported operand types for %")
  else if op = "==" then
    .ok (.int (if valueEqB a b then 1 else 0))
  else
    .error (.unknownOp op)

/-- Expression evaluation (`Number.eval`, `String.eval`, `Var.eval`,
`BinOp.eval`).  A `Var` read of a name that is absent or bound to the
`None` sentinel raises the undefined-variable error; `BinOp` evaluates
both operands eagerly, left first. -/
def evalExpr : Expr → Env → Except Err Value
  | .num v, _ => .ok (.int v)
  | .str s, _ => .ok (.str s)
  | .var n, env =>
      match dictGet env n with
      | Option.none => .error (.undefinedVariable n)
      | some Option.none => .error (.undefinedVariable n)
      | some (some v) => .ok v
  | .binOp l op r, env => do
      let a ← evalExpr l env
      let b ← evalExpr r env
      evalBinOp op a b

/-! ### Statement evaluation -/

/-- The observable effects: the pending stdin lines and the text written
to stdout so far.  `serve` appends its value's text plus a newline;
`ask` appends its prompt's text plus a single space (no newline), then
consumes one stdin line. -/
structure Effects where
  input : List String
  output : String
  deriving DecidableEq, Repr

/-- The whitespace characters Python `int()` ignores around a numeral. -/
def isPySpace (c : Char) : Bool :=
  c = ' ' || c = '\t' || c = '\n' || c = '\r' ||
  c = Char.ofNat 11 || c = Char.ofNat 12

/-- Strip `isPySpace` characters from both ends of a character list. -/
def stripChars (cs : List Char) : List Char :=
  ((cs.dropWhile isPySpace).reverse.dropWhile isPySpace).reverse

/-- Python `int(raw)` as attempted by `AskStmt.eval` on the reply line:
surrounding whitespace is ignored, an optional sign precedes a non-empty
digit run.  (Python additionally allows underscore digit grouping, which
no theorem here exercises.)  `none` models the `ValueError` branch that
keeps the reply as text. -/
def pyParseInt (s : String) : Option Int :=
  match stripChars s.data with
  | '-' :: ds =>
      if !ds.isEmpty && ds.all Char.isDigit then some (-(digitsToNat ds : Int))
      else Option.none
  | '+' :: ds =>
      if !ds.isEmpty && ds.all Char.isDigit then some (digitsToNat ds : Int)
      else Option.none
  | ds =>
      if !ds.isEmpty && ds.all Char.isDigit then some (digitsToNat ds : Int)
      else Option.none

/-- Python `sub in s` for strings: substring containment (used by
`MakeStmt.eval`'s `self.name not in recipes` when a program has
overwritten `__recipes__` with a string value). -/
def pyInStr (needle hay : String) : Bool :=
  decide (List.IsInfix needle.data hay.data)

/-- Argument evaluation of `MakeStmt.eval`: each argument expression is
evaluated in the caller's environment, left to right, stopping at the
first error. -/
def evalArgs : List Expr → Env → Except Err (List Value)
  | [], _ => .ok []
  | a :: rest, env => do
      let v ← evalExpr a env
      let vs ← evalArgs rest env
      .ok (v :: vs)

/-- The `zip(params, args)` loop of `MakeStmt.eval`, applied after the
arguments have been evaluated: bind each parameter name in the fresh
frame, in order (a repeated parameter name keeps the last binding, as a
dict does). -/
def bindParams : List String → List Value → Env → Env
  | p :: ps, v :: vs, env => bindParams ps vs (dictSet env p (some v))
  | _, _, env => env

mutual

/-- Statement execution: the `eval` methods of the statement node
classes, with the environment and effects threaded explicitly.  An error
result also carries the effects, because output printed before an
exception has already been observed.  One unit of fuel is spent on every
step, mirroring Python's bounded native recursion depth: a run the
Python interpreter completes is completed here by any sufficiently large
fuel, and `outOfFuel` models `RecursionError`.

The `ifS` case mirrors `IfStmt.eval` exactly: `elif self.else_s:` is
false both for `None` and for an empty else-block, and executing an
empty block is a no-op, so both fall to the no-op branch.

The `make` case mirrors `MakeStmt.eval`: fetch `env['__recipes__']`
(a `TypeError` if a program overwrote it with a non-dict value), look up
the recipe (`RecipeNotFound`), check arity before evaluating any
argument (`ArityMismatch`), evaluate the arguments in the caller's
environment, run the body in a fresh frame holding only the shared
table and the bound parameters, and discard that frame, returning the
caller's environment untouched. -/
def evalStmt : Nat → Stmt → Env → Effects → Except Err Env × Effects
  | 0, _, _, fx => (.error .outOfFuel, fx)
  | fuel + 1, stmt, env, fx =>
      match stmt with
      | .ingredient name _ty => (.ok (dictSet env name Option.none), fx)
      | .mix e target =>
          (match evalExpr e env with
           | .error er => (.error er, fx)
           | .ok v => (.ok (dictSet env target (some v)), fx))
      | .serve e =>
          (match evalExpr e env with
           | .error er => (.error er, fx)
           | .ok v =>
               (.ok env, { fx with output := fx.output ++ pyStr v ++ "\n" }))
      | .ask prompt target =>
          (match evalExpr prompt env with
           | .error er => (.error er, fx)
           | .ok p =>
               let fx1 := { fx with output := fx.output ++ pyStr p ++ " " }
               match fx1.input with
               | [] => (.error .eofError, fx1)
               | line :: rest =>
                   let v := match pyParseInt line with
                            | some n => Value.int n
                            | Option.none => Value.str line
                   (.ok (dictSet env target (some v)),
                    { fx1 with input := rest }))
      | .ifS cond thenB elseB =>
          (match evalExpr cond env with
           | .error er => (.error er, fx)
           | .ok v =>
               if pyTruthy v then evalBlock fuel thenB env fx
               else
                 match elseB with
                 | some (s :: ss) => evalBlock fuel (s :: ss) env fx
                 | _ => (.ok env, fx))
      | .repeatS start stop body =>
          (match evalExpr start env with
           | .error er => (.error er, fx)
           | .ok lo =>
               match evalExpr stop env with
               | .error er => (.error er, fx)
               | .ok hi =>
                   match lo, hi with
                   | .int lo, .int hi =>
                       evalRepeat fuel body lo ((hi + 1 - lo).toNat) env fx
                   | _, _ =>
                       (.error (.typeError "range expects integer arguments"),
                        fx))
      | .make name args =>
          (match dictGet env "__recipes__" with
           | some (some (.table tbl)) =>
               (match dictGet tbl name with
                | Option.none => (.error (.recipeNotFound name), fx)
                | some (params, body) =>
                    if params.length ≠ args.length then
                      (.error (.arityMismatch name params.length args.length),
                       fx)
                    else
                      match evalArgs args env with
                      | .error er => (.error er, fx)
                      | .ok vals =>
                          let frame :=
                            bindParams params vals
                              [("__recipes__", some (.table tbl))]
                          match evalBlock fuel body frame fx with
                          | (.ok _, fx') => (.ok env, fx')
                          | (.error er, fx') => (.error er, fx'))
           | some (some (.str s)) =>
               -- Python `name not in s` on a string is a substring test: an
               -- absent name then raises RecipeNotFound, and a present one
               -- fails only when the string is indexed with `recipes[name]`.
               if pyInStr name s then
                 (.error (.typeError "string indices must be integers"), fx)
               else (.error (.recipeNotFound name), fx)
           | some (some (.int _)) =>
               (.error (.typeError "recipe lookup in a non-dict value"), fx)
           | some Option.none =>
               (.error (.typeError "recipe lookup in None"), fx)
           | Option.none => (.error (.keyError "__recipes__"), fx))
termination_by structural fuel _s _env _fx => fuel

/-- Sequential execution of a statement list (a block or the top-level
statement list), stopping at the first error. -/
def evalBlock : Nat → List Stmt → Env → Effects → Except Err Env × Effects
  | _, [], env, fx => (.ok env, fx)
  | 0, _ :: _, _, fx => (.error .outOfFuel, fx)
  | fuel + 1, s :: ss, env, fx =>
      match evalStmt fuel s env fx with
      | (.ok env', fx') => evalBlock fuel ss env' fx'
      | (.error er, fx') => (.error er, fx')
termination_by structural fuel _ss _env _fx => fuel

/-- The `for i in range(lo, hi+1)` loop of `RepeatStmt.eval`, counted
down by the number of remaining iterations: bind `i` in the current
environment, run the body, continue with `i + 1`. -/
def evalRepeat :
    Nat → List Stmt → Int → Nat → Env → Effects → Except Err Env × Effects
  | _, _, _, 0, env, fx => (.ok env, fx)
  | 0, _, _, _ + 1, _, fx => (.error .outOfFuel, fx)
  | fuel + 1, body, i, n + 1, env, fx =>
      match evalBlock fuel body (dictSet env "i" (some (.int i))) fx with
      | (.ok env', fx') => evalRepeat fuel body (i + 1) n env' fx'
      | (.error er, fx') => (.error er, fx')
termination_by structural fuel _body _i _n _env _fx => fuel

end

/-- `RecipeDef.eval`: registration
`env['__recipes__'][self.name] = (self.params, self.body)`.
The fallback branch is unreachable from `progEval`: registration starts
from the fresh table installed by `Program.eval` and preserves it. -/
def recipeEval (r : Recipe) (env : Env) : Env :=
  match dictGet env "__recipes__" with
  | some (some (.table t)) =>
      dictSet env "__recipes__"
        (some (.table (dictSet t r.name (r.params, r.body))))
  | _ => env

/-- The registration pre-pass of `Program.eval`: evaluate every
`RecipeDef` in source order. -/
def registerAll : List Recipe → Env → Env
  | [], env => env
  | r :: rs, env => registerAll rs (recipeEval r env)

/-- `Program.eval`: create `{'__recipes__': {}}`, register all recipe
definitions, then execute the top-level statements in order. -/
def progEval (fuel : Nat) (p : Program) (fx : Effects) :
    Except Err Env × Effects :=
  evalBlock fuel p.main
    (registerAll p.recipes [("__recipes__", some (.table []))]) fx

/-- The pure counterpart of `registerAll` acting on the table alone:
fold every definition into the table, later definitions of the same
name overwriting earlier ones. -/
def buildTable : List Recipe → Table → Table
  | [], t => t
  | r :: rs, t => buildTable rs (dictSet t r.name (r.params, r.body))

/-! ### Parser -/

/-- `self.tokens[self.pos]`.  The stream always ends in EOF and the
parser never advances past it, so the (unreachable) out-of-range read is
modelled as EOF. -/
def curTk (tks : List Token) (pos : Nat) : Token :=
  tks.getD pos ⟨"EOF", TkVal.pyNone⟩

/-- `Parser.eat(ttype, tval=None)`: accept the current token when its
type matches and, when an expected value is supplied, its value matches
— though every call site in the source leaves `tval` at `None`.
Otherwise a `ParseError` naming the expectation and the actual token. -/
def eatTk (ttype : String) (tval : Option TkVal) (tks : List Token)
    (pos : Nat) : Except Err (Token × Nat) :=
  let tok := curTk tks pos
  if tok.type = ttype ∧ (tval = Option.none ∨ tval = some tok.value) then
    .ok (tok, pos + 1)
  else
    .error (.parseError ttype tval tok)

/-- The string carried by a token value; only applied under guards that
guarantee the value is a string. -/
def tkStr : TkVal → String
  | .str s => s
  | _ => ""

/-- The integer carried by a NUMBER token value. -/
def tkInt : TkVal → Int
  | .int i => i
  | _ => 0

/-- Python `str.lower()` as applied to identifier text (all ASCII under
the lexer's identifier pattern). -/
def strLower (s : String) : String := String.mk (s.data.map Char.toLower)

mutual

/-- The `Parser.parse` loop: until EOF, an `ID` token whose lowercased
value is `recipe` starts a recipe definition, anything else a top-level
statement; the two are accumulated separately, each in source order. -/
def parseTop :
    Nat → List Token → Nat → Except Err (List Recipe × List Stmt × Nat)
  | 0, _, _ => .error .outOfFuel
  | fuel + 1, tks, pos =>
      let t := curTk tks pos
      if t.type = "EOF" then .ok ([], [], pos)
      else if t.type = "ID" ∧ strLower (tkStr t.value) = "recipe" then do
        let (r, pos1) ← parseRecipe fuel tks pos
        let (rs, ms, pos2) ← parseTop fuel tks pos1
        .ok (r :: rs, ms, pos2)
      else do
        let (s, pos1) ← parseStmt fuel tks pos
        let (rs, ms, pos2) ← parseTop fuel tks pos1
        .ok (rs, s :: ms, pos2)
termination_by structural fuel _tks _pos => fuel

/-- `Parser.parse_recipe`. -/
def parseRecipe : Nat → List Token → Nat → Except Err (Recipe × Nat)
  | 0, _, _ => .error .outOfFuel
  | fuel + 1, tks, pos => do
      let (_, p1) ← eatTk "ID" Option.none tks pos      -- the `recipe` keyword
      let (nameTok, p2) ← eatTk "ID" Option.none tks p1
      let (_, p3) ← eatTk "(" Option.none tks p2
      let (params, p4) ←
        if (curTk tks p3).type = "ID" then do
          let (h, p3a) ← eatTk "ID" Option.none tks p3
          let (rest, p3b) ← parseParamsTail fuel tks p3a
          Except.ok (tkStr h.value :: rest, p3b)
        else Except.ok ([], p3)
      let (_, p5) ← eatTk ")" Option.none tks p4
      let (body, p6) ← parseBlock fuel tks p5
      .ok (⟨tkStr nameTok.value, params, body⟩, p6)

/-- The `while self.cur().value==','` loop of `parse_recipe`. -/
def parseParamsTail :
    Nat → List Token → Nat → Except Err (List String × Nat)
  | 0, _, _ => .error .outOfFuel
  | fuel + 1, tks, pos =>
      if (curTk tks pos).value = TkVal.str "," then do
        let (_, p1) ← eatTk "," Option.none tks pos
        let (h, p2) ← eatTk "ID" Option.none tks p1
        let (rest, p3) ← parseParamsTail fuel tks p2
        .ok (tkStr h.value :: rest, p3)
      else .ok ([], pos)
termination_by structural fuel _tks _pos => fuel

/-- `Parser.parse_stmt`: dispatch on the lowercased value of a leading
`ID` token; any other leading token is an unknown statement. -/
def parseStmt : Nat → List Token → Nat → Except Err (Stmt × Nat)
  | 0, _, _ => .error .outOfFuel
  | fuel + 1, tks, pos =>
      let tok := curTk tks pos
      if tok.type = "ID" then
        let kw := strLower (tkStr tok.value)
        if kw = "mix" ∨ kw = "fold" then parseMix fuel tks pos
        else if kw = "serve" then parseServe fuel tks pos
        else if kw = "ask" then parseAsk fuel tks pos
        else if kw = "if" then parseIf fuel tks pos
        else if kw = "repeat" then parseRepeat fuel tks pos
        else if kw = "make" then parseMake fuel tks pos
        else if kw = "ingredient" then parseDecl fuel tks pos
        else .error (.unknownStmt tok.value)
      else .error (.unknownStmt tok.value)
termination_by structural fuel _tks _pos => fuel

/-- `Parser.parse_decl`. -/
def parseDecl : Nat → List Token → Nat → Except Err (Stmt × Nat)
  | 0, _, _ => .error .outOfFuel
  | _fuel + 1, tks, pos => do
      let (_, p1) ← eatTk "ID" Option.none tks pos      -- the `ingredient` keyword
      let (nameTok, p2) ← eatTk "ID" Option.none tks p1
      let (_, p3) ← eatTk ":" Option.none tks p2
      let (tyTok, p4) ← eatTk "ID" Option.none tks p3
      let (_, p5) ← eatTk ";" Option.none tks p4
      .ok (.ingredient (tkStr nameTok.value) (tkStr tyTok.value), p5)

/-- `Parser.parse_mix`, used for both `mix` and `fold`.  Note that the
`into` position is consumed by `eat('ID')` with no expected value: any
identifier is accepted there. -/
def parseMix : Nat → List Token → Nat → Except Err (Stmt × Nat)
  | 0, _, _ => .error .outOfFuel
  | fuel + 1, tks, pos => do
      let (_, p1) ← eatTk "ID" Option.none tks pos      -- mix / fold
      let (e, p2) ← parseExpr fuel tks p1
      let (_, p3) ← eatTk "ID" Option.none tks p2       -- the `into` position
      let (tTok, p4) ← eatTk "ID" Option.none tks p3
      let (_, p5) ← eatTk ";" Option.none tks p4
      .ok (.mix e (tkStr tTok.value), p5)

/-- `Parser.parse_serve`. -/
def parseServe : Nat → List Token → Nat → Except Err (Stmt × Nat)
  | 0, _, _ => .error .outOfFuel
  | fuel + 1, tks, pos => do
      let (_, p1) ← eatTk "ID" Option.none tks pos      -- serve
      let (e, p2) ← parseExpr fuel tks p1
      let (_, p3) ← eatTk ";" Option.none tks p2
      .ok (.serve e, p3)

/-- `Parser.parse_ask`; like `parse_mix`, the `into` position accepts
any identifier. -/
def parseAsk : Nat → List Token → Nat → Except Err (Stmt × Nat)
  | 0, _, _ => .error .outOfFuel
  | fuel + 1, tks, pos => do
      let (_, p1) ← eatTk "ID" Option.none tks pos      -- ask
      let (e, p2) ← parseExpr fuel tks p1
      let (_, p3) ← eatTk "ID" Option.none tks p2       -- the `into` position
      let (tTok, p4) ← eatTk "ID" Option.none tks p3
      let (_, p5) ← eatTk ";" Option.none tks p4
      .ok (.ask e (tkStr tTok.value), p5)

/-- `Parser.parse_if`; the `then` position accepts any identifier, while
the optional `else` keyword IS checked by lowercased value. -/
def parseIf : Nat → List Token → Nat → Except Err (Stmt × Nat)
  | 0, _, _ => .error .outOfFuel
  | fuel + 1, tks, pos => do
      let (_, p1) ← eatTk "ID" Option.none tks pos      -- if
      let (_, p2) ← eatTk "(" Option.none tks p1
      let (cond, p3) ← parseExpr fuel tks p2
      let (_, p4) ← eatTk ")" Option.none tks p3
      let (_, p5) ← eatTk "ID" Option.none tks p4       -- the `then` position
      let (thenB, p6) ← parseBlock fuel tks p5
      let t := curTk tks p6
      if t.type = "ID" ∧ strLower (tkStr t.value) = "else" then do
        let (_, p7) ← eatTk "ID" Option.none tks p6
        let (elseB, p8) ← parseBlock fuel tks p7
        .ok (.ifS cond thenB (some elseB), p8)
      else .ok (.ifS cond thenB Option.none, p6)
termination_by structural fuel _tks _pos => fuel

/-- `Parser.parse_repeat`; the `to` position accepts any identifier. -/
def parseRepeat : Nat → List Token → Nat → Except Err (Stmt × Nat)
  | 0, _, _ => .error .outOfFuel
  | fuel + 1, tks, pos => do
      let (_, p1) ← eatTk "ID" Option.none tks pos      -- repeat
      let (startE, p2) ← parseExpr fuel tks p1
      let (_, p3) ← eatTk "ID" Option.none tks p2       -- the `to` position
      let (stopE, p4) ← parseExpr fuel tks p3
      let (body, p5) ← parseBlock fuel tks p4
      .ok (.repeatS startE stopE body, p5)
termination_by structural fuel _tks _pos => fuel

/-- `Parser.parse_make`. -/
def parseMake : Nat → List Token → Nat → Except Err (Stmt × Nat)
  | 0, _, _ => .error .outOfFuel
  | fuel + 1, tks, pos => do
      let (_, p1) ← eatTk "ID" Option.none tks pos      -- make
      let (nameTok, p2) ← eatTk "ID" Option.none tks p1
      let (_, p3) ← eatTk "(" Option.none tks p2
      let t := curTk tks p3
      let (args, p4) ←
        if t.type = "NUMBER" ∨ t.type = "STRING" ∨ t.type = "ID" ∨
            t.type = "(" then do
          let (a, p3a) ← parseExpr fuel tks p3
          let (rest, p3b) ← parseArgsTail fuel tks p3a
          Except.ok (a :: rest, p3b)
        else Except.ok ([], p3)
      let (_, p5) ← eatTk ")" Option.none tks p4
      let (_, p6) ← eatTk ";" Option.none tks p5
      .ok (.make (tkStr nameTok.value) args, p6)

/-- The `while self.cur().value==','` loop of `parse_make`. -/
def parseArgsTail :
    Nat → List Token → Nat → Except Err (List Expr × Nat)
  | 0, _, _ => .error .outOfFuel
  | fuel + 1, tks, pos =>
      if (curTk tks pos).value = TkVal.str "," then do
        let (_, p1) ← eatTk "," Option.none tks pos
        let (a, p2) ← parseExpr fuel tks p1
        let (rest, p3) ← parseArgsTail fuel tks p2
        .ok (a :: rest, p3)
      else .ok ([], pos)
termination_by structural fuel _tks _pos => fuel

/-- `Parser.parse_block`. -/
def parseBlock :
    Nat → List Token → Nat → Except Err (List Stmt × Nat)
  | 0, _, _ => .error .outOfFuel
  | fuel + 1, tks, pos => do
      let (_, p1) ← eatTk "\x7b" Option.none tks pos
      let (ss, p2) ← parseBlockItems fuel tks p1
      let (_, p3) ← eatTk "\x7d" Option.none tks p2
      .ok (ss, p3)
termination_by structural fuel _tks _pos => fuel

/-- The `while self.cur().value != '}'` loop of `parse_block` (the
comparison is by token value, so EOF, whose value is `None`, keeps the
loop running into a parse error on the missing brace). -/
def parseBlockItems :
    Nat → List Token → Nat → Except Err (List Stmt × Nat)
  | 0, _, _ => .error .outOfFuel
  | fuel + 1, tks, pos =>
      if (curTk tks pos).value ≠ TkVal.str "\x7d" then do
        let (s, p1) ← parseStmt fuel tks pos
        let (ss, p2) ← parseBlockItems fuel tks p1
        .ok (s :: ss, p2)
      else .ok ([], pos)
termination_by structural fuel _tks _pos => fuel

/-- `Parser.parse_expr`: the chain starts at equality. -/
def parseExpr : Nat → List Token → Nat → Except Err (Expr × Nat)
  | 0, _, _ => .error .outOfFuel
  | fuel + 1, tks, pos => parseEq fuel tks pos
termination_by structural fuel _tks _pos => fuel

/-- `Parser.parse_eq`: an addition-level operand, then a left-leaning
chain of `==`. -/
def parseEq : Nat → List Token → Nat → Except Err (Expr × Nat)
  | 0, _, _ => .error .outOfFuel
  | fuel + 1, tks, pos => do
      let (n, p1) ← parseAdd fuel tks pos
      parseEqLoop fuel tks p1 n
termination_by structural fuel _tks _pos => fuel

/-- The `while` loop of `parse_eq`. -/
def parseEqLoop :
    Nat → List Token → Nat → Expr → Except Err (Expr × Nat)
  | 0, _, _, _ => .error .outOfFuel
  | fuel + 1, tks, pos, node =>
      let t := curTk tks pos
      if t.type = "OP" ∧ t.value = TkVal.str "==" then do
        let (opTok, p1) ← eatTk "OP" Option.none tks pos
        let (rhs, p2) ← parseAdd fuel tks p1
        parseEqLoop fuel tks p2 (.binOp node (tkStr opTok.value) rhs)
      else .ok (node, pos)
termination_by structural fuel _tks _pos _node => fuel

/-- `Parser.parse_add`: a modulo-level operand, then a left-leaning
chain of `+`. -/
def parseAdd : Nat → List Token → Nat → Except Err (Expr × Nat)
  | 0, _, _ => .error .outOfFuel
  | fuel + 1, tks, pos => do
      let (n, p1) ← parseMod fuel tks pos
      parseAddLoop fuel tks p1 n
termination_by structural fuel _tks _pos => fuel

/-- The `while` loop of `parse_add`. -/
def parseAddLoop :
    Nat → List Token → Nat → Expr → Except Err (Expr × Nat)
  | 0, _, _, _ => .error .outOfFuel
  | fuel + 1, tks, pos, node =>
      let t := curTk tks pos
      if t.type = "OP" ∧ t.value = TkVal.str "+" then do
        let (opTok, p1) ← eatTk "OP" Option.none tks pos
        let (rhs, p2) ← parseMod fuel tks p1
        parseAddLoop fuel tks p2 (.binOp node (tkStr opTok.value) rhs)
      else .ok (node, pos)
termination_by structural fuel _tks _pos _node => fuel

/-- `Parser.parse_mod`: a primary operand, then a left-leaning chain
of `%`. -/
def parseMod : Nat → List Token → Nat → Except Err (Expr × Nat)
  | 0, _, _ => .error .outOfFuel
  | fuel + 1, tks, pos => do
      let (n, p1) ← parsePrimary fuel tks pos
      parseModLoop fuel tks p1 n
termination_by structural fuel _tks _pos => fuel

/-- The `while` loop of `parse_mod`. -/
def parseModLoop :
    Nat → List Token → Nat → Expr → Except Err (Expr × Nat)
  | 0, _, _, _ => .error .outOfFuel
  | fuel + 1, tks, pos, node =>
      let t := curTk tks pos
      if t.type = "OP" ∧ t.value = TkVal.str "%" then do
        let (opTok, p1) ← eatTk "OP" Option.none tks pos
        let (rhs, p2) ← parsePrimary fuel tks p1
        parseModLoop fuel tks p2 (.binOp node (tkStr opTok.value) rhs)
      else .ok (node, pos)
termination_by structural fuel _tks _pos _node => fuel

/-- `Parser.parse_primary`: number, string or identifier literal, or a
parenthesized expression (recognized by token value, as in the source);
anything else is an unexpected-token parse error. -/
def parsePrimary : Nat → List Token → Nat → Except Err (Expr × Nat)
  | 0, _, _ => .error .outOfFuel
  | fuel + 1, tks, pos =>
      let t := curTk tks pos
      if t.type = "NUMBER" then do
        let (_, p1) ← eatTk "NUMBER" Option.none tks pos
        .ok (.num (tkInt t.value), p1)
      else if t.type = "STRING" then do
        let (_, p1) ← eatTk "STRING" Option.none tks pos
        .ok (.str (tkStr t.value), p1)
      else if t.type = "ID" then do
        let (_, p1) ← eatTk "ID" Option.none tks pos
        .ok (.var (tkStr t.value), p1)
      else if t.value = TkVal.str "(" then do
        let (_, p1) ← eatTk "(" Option.none tks pos
        let (e, p2) ← parseExpr fuel tks p1
        let (_, p3) ← eatTk ")" Option.none tks p2
        .ok (e, p3)
      else .error (.unexpectedTok t)
termination_by structural fuel _tks _pos => fuel

end

/-- `Parser(tokenize(code)).parse()`: lex, then run the top-level parse
loop.  The parser's call depth is bounded by a small multiple of the
token count, so the fuel below never runs out on a stream the Python
parser terminates on. -/
def parseSource (src : String) : Except Err Program := do
  let tks ← tokenize src
  let (rs, ms, _) ← parseTop (20 * (tks.length + 1)) tks 0
  .ok ⟨rs, ms⟩

/-- `run_file`, with the source text supplied directly: tokenize, parse,
evaluate against a fresh environment and the given stdin lines.  A lex
or parse error aborts before any statement runs. -/
def runSource (fuel : Nat) (src : String) (stdin : List String) :
    Except Err Env × Effects :=
  match parseSource src with
  | .error er => (.error er, ⟨stdin, ""⟩)
  | .ok p => progEval fuel p ⟨stdin, ""⟩

/-! ### Reference descriptions used to state loop behavior -/

/-- The index list traversed by `range(lo, lo + n)`: the `n` consecutive
integers starting at `lo`, in ascending order.  `RepeatStmt.eval`'s
`range(lo, hi+1)` traverses `iterIdx lo ((hi + 1 - lo).toNat)`. -/
def iterIdx : Int → Nat → List Int
  | _, 0 => []
  | lo, n + 1 => lo :: iterIdx (lo + 1) n

/-- Reference loop: execute the body once per index in the given list,
in order, binding the variable `i` in the current environment to the
index before each iteration. -/
def runIters :
    Nat → List Stmt → List Int → Env → Effects → Except Err Env × Effects
  | _, _, [], env, fx => (.ok env, fx)
  | 0, _, _ :: _, _, fx => (.error .outOfFuel, fx)
  | fuel + 1, body, i :: rest, env, fx =>
      match evalBlock fuel body (dictSet env "i" (some (.int i))) fx with
      | (.ok env', fx') => runIters fuel body rest env' fx'
      | (.error er, fx') => (.error er, fx')

/-! ### Theorems -/

/-- C2: operator precedence and associativity of the expression grammar:
`%` binds tighter than `+`, which binds tighter than `==`, and every
level chains to the left.  In particular `a + b % c` parses as
`BinOp('+', a, BinOp('%', b, c))`. -/
theorem c2_precedence :
    parseSource "mix a + b % c into x;" =
      .ok ⟨[], [.mix (.binOp (.var "a") "+"
        (.binOp (.var "b") "%" (.var "c"))) "x"]⟩ ∧
    parseSource "mix a % b + c into x;" =
      .ok ⟨[], [.mix (.binOp (.binOp (.var "a") "%" (.var "b")) "+"
        (.var "c")) "x"]⟩ ∧
    parseSource "mix a == b + c into x;" =
      .ok ⟨[], [.mix (.binOp (.var "a") "=="
        (.binOp (.var "b") "+" (.var "c"))) "x"]⟩ ∧
    parseSource "mix a + b == c into x;" =
      .ok ⟨[], [.mix (.binOp (.binOp (.var "a") "+" (.var "b")) "=="
        (.var "c")) "x"]⟩ ∧
    parseSource "mix a + b + c into x;" =
      .ok ⟨[], [.mix (.binOp (.binOp (.var "a") "+" (.var "b")) "+"
        (.var "c")) "x"]⟩ ∧
    parseSource "mix a % b % c into x;" =
      .ok ⟨[], [.mix (.binOp (.binOp (.var "a") "%" (.var "b")) "%"
        (.var "c")) "x"]⟩ ∧
    parseSource "mix a == b == c into x;" =
      .ok ⟨[], [.mix (.binOp (.binOp (.var "a") "==" (.var "b")) "=="
        (.var "c")) "x"]⟩ :=
  ⟨rfl, rfl, rfl, rfl, rfl, rfl, rfl⟩

/-- C3: `+` adds two integers and concatenates the textual forms when at
least one operand is a string (integers in decimal form); `==` yields
integer `1` on structurally equal operands and `0` otherwise; and the
spec's worked examples `2 + 3 ↦ 5`, `"a" + 1 ↦ a1`, `3 == 3 ↦ 1` hold
end to end. -/
theorem c3_binop_semantics :
    (∀ x y : Int, evalBinOp "+" (.int x) (.int y) = .ok (.int (x + y))) ∧
    (∀ s t : String, evalBinOp "+" (.str s) (.str t) = .ok (.str (s ++ t))) ∧
    (∀ (s : String) (y : Int),
       evalBinOp "+" (.str s) (.int y) = .ok (.str (s ++ toString y))) ∧
    (∀ (x : Int) (t : String),
       evalBinOp "+" (.int x) (.str t) = .ok (.str (toString x ++ t))) ∧
    (∀ x y : Int,
       evalBinOp "==" (.int x) (.int y) =
         .ok (.int (if x = y then 1 else 0))) ∧
    (∀ s t : String,
       evalBinOp "==" (.str s) (.str t) =
         .ok (.int (if s = t then 1 else 0))) ∧
    (∀ (x : Int) (t : String),
       evalBinOp "==" (.int x) (.str t) = .ok (.int 0)) ∧
    (∀ (s : String) (y : Int),
       evalBinOp "==" (.str s) (.int y) = .ok (.int 0)) ∧
    runSource 100 "mix 2 + 3 into x; serve x;" [] =
      (.ok [("__recipes__", some (.table [])), ("x", some (.int 5))],
       ⟨[], "5\n"⟩) ∧
    runSource 100 "mix \"a\" + 1 into x; serve x;" [] =
      (.ok [("__recipes__", some (.table [])), ("x", some (.str "a1"))],
       ⟨[], "a1\n"⟩) ∧
    runSource 100 "mix 3 == 3 into z; serve z;" [] =
      (.ok [("__recipes__", some (.table [])), ("z", some (.int 1))],
       ⟨[], "1\n"⟩) := by
  refine ⟨?_, ?_, ?_, ?_, ?_, ?_, ?_, ?_, by rfl, by rfl, by rfl⟩
  · intro x y; rfl
  · intro s t; simp [evalBinOp, isStr, pyStr]
  · intro s y; simp [evalBinOp, isStr, pyStr]
  · intro x t; simp [evalBinOp, isStr, pyStr]
  · intro x y; simp [evalBinOp, valueEqB, beq_iff_eq]
  · intro s t; simp [evalBinOp, valueEqB, beq_iff_eq]
  · intro x t; rfl
  · intro s y; rfl

/-- C8, counterexample: the claim asserts that an ID token with the
wrong value at the `into` / `to` / `then` positions makes parsing fail
with a `ParseError`; in fact the parser consumes those positions with
`eat('ID')` and no expected value, so an arbitrary identifier such as
`banana` is accepted and parsing succeeds. -/
theorem c8_counterexample :
    parseSource "mix 1 banana x;" = .ok ⟨[], [.mix (.num 1) "x"]⟩ ∧
    parseSource "repeat 1 banana 2 { }" =
      .ok ⟨[], [.repeatS (.num 1) (.num 2) []]⟩ ∧
    parseSource "if (1) banana { }" =
      .ok ⟨[], [.ifS (.num 1) [] Option.none]⟩ :=
  ⟨rfl, rfl, rfl⟩

/-- C8, amended: at the positions of the `into` (mix/fold, ask), `to`
(repeat) and `then` (if) keywords the parser requires only that the
token be an `ID` token; any identifier value whatsoever is accepted
there, and only a non-`ID` token at those positions fails, with a
`ParseError` naming the expected type `ID` and the actual token. -/
theorem c8_amended :
    (∀ w : String,
       parseStmt 30 [⟨"ID", .str "mix"⟩, ⟨"NUMBER", .int 1⟩, ⟨"ID", .str w⟩,
           ⟨"ID", .str "x"⟩, ⟨";", .str ";"⟩, ⟨"EOF", .pyNone⟩] 0 =
         .ok (.mix (.num 1) "x", 5)) ∧
    (∀ w : String,
       parseStmt 30 [⟨"ID", .str "repeat"⟩, ⟨"NUMBER", .int 1⟩,
           ⟨"ID", .str w⟩, ⟨"NUMBER", .int 2⟩, ⟨"\x7b", .str "\x7b"⟩,
           ⟨"\x7d", .str "\x7d"⟩, ⟨"EOF", .pyNone⟩] 0 =
         .ok (.repeatS (.num 1) (.num 2) [], 6)) ∧
    (∀ w : String,
       parseStmt 30 [⟨"ID", .str "if"⟩, ⟨"(", .str "("⟩, ⟨"NUMBER", .int 1⟩,
           ⟨")", .str ")"⟩, ⟨"ID", .str w⟩, ⟨"\x7b", .str "\x7b"⟩, ⟨"\x7d", .str "\x7d"⟩,
           ⟨"EOF", .pyNone⟩] 0 =
         .ok (.ifS (.num 1) [] Option.none, 7)) ∧
    parseStmt 30 [⟨"ID", .str "mix"⟩, ⟨"NUMBER", .int 1⟩, ⟨"NUMBER", .int 9⟩,
        ⟨"ID", .str "x"⟩, ⟨";", .str ";"⟩, ⟨"EOF", .pyNone⟩] 0 =
      .error (.parseError "ID" Option.none ⟨"NUMBER", .int 9⟩) :=
  ⟨fun _ => rfl, fun _ => rfl, fun _ => rfl, rfl⟩

/-- C1, counterexample: the claim makes every string condition — the
empty string included — select the then-block; the code tests Python
truthiness, under which the empty string is falsy, so an empty-string
condition selects the else-block: the program below prints `2`, not
`1`. -/
theorem c1_counterexample :
    runSource 100 "if (\"\") then { serve 1; } else { serve 2; }" [] =
      (.ok [("__recipes__", some (.table []))], ⟨[], "2\n"⟩) ∧
    "2\n" ≠ "1\n" :=
  ⟨rfl, by decide⟩

/-- C1, amended: an if-condition is truthy exactly when it is a non-zero
integer or a non-empty string: those select the then-block, while
integer `0` and the empty string select the else-block when present and
are a no-op otherwise. -/
theorem c1_amended :
    (∀ (fuel : Nat) (cond : Expr) (thenB : List Stmt)
       (elseB : Option (List Stmt)) (env : Env) (fx : Effects) (v : Value),
       evalExpr cond env = .ok v →
       evalStmt (fuel + 1) (.ifS cond thenB elseB) env fx =
         if pyTruthy v then evalBlock fuel thenB env fx
         else
           match elseB with
           | some (s :: ss) => evalBlock fuel (s :: ss) env fx
           | _ => (.ok env, fx)) ∧
    (∀ i : Int, (pyTruthy (.int i) = true ↔ i ≠ 0)) ∧
    (∀ s : String, (pyTruthy (.str s) = true ↔ s ≠ "")) := by
  refine ⟨?_, ?_, ?_⟩
  · intro fuel cond thenB elseB env fx v h
    simp [evalStmt, h]
  · intro i; simp [pyTruthy]
  · intro s; simp [pyTruthy]

/-- C1, witness for the amended theorem: with the empty-string condition
the dispatch takes the else-block. -/
theorem c1_amended_witness :
    evalStmt 3 (.ifS (.str "") [.serve (.num 1)] (some [.serve (.num 2)]))
        [] ⟨[], ""⟩ =
      evalBlock 2 [.serve (.num 2)] [] ⟨[], ""⟩ :=
  c1_amended.1 2 (.str "") [.serve (.num 1)] (some [.serve (.num 2)])
    [] ⟨[], ""⟩ (.str "") rfl

/-- C9: reading a variable that is absent from the environment, or was
only declared and still holds the uninitialized sentinel, raises
`UndefinedVariable` rather than producing a default value — shown in
general over `Var.eval` and end to end for a declared-but-unassigned
variable and for a never-bound one. -/
theorem c9_undefined_variable :
    (∀ (env : Env) (n : String),
       dictGet env n = Option.none ∨ dictGet env n = some Option.none →
       evalExpr (.var n) env = .error (.undefinedVariable n)) ∧
    runSource 100 "ingredient x: Number; serve x;" [] =
      (.error (.undefinedVariable "x"), ⟨[], ""⟩) ∧
    runSource 100 "serve y;" [] =
      (.error (.undefinedVariable "y"), ⟨[], ""⟩) := by
  refine ⟨?_, by rfl, by rfl⟩
  intro env n h
  rcases h with h | h <;> simp [evalExpr, h]

/-- C9, witness: a binding holding the sentinel is rejected on read. -/
theorem c9_witness :
    evalExpr (.var "x") [("x", Option.none)] =
      .error (.undefinedVariable "x") :=
  c9_undefined_variable.1 [("x", Option.none)] "x" (Or.inr rfl)

/-- C10, counterexample: the procedure table is itself a binding of the
environment under the lexable identifier `__recipes__`, so a `Var`
expression can read it (yielding a value that is neither an integer nor
a string), and an assignment can overwrite it, after which a call to a
perfectly well registered recipe fails — refuting the claim that no
program-visible variable name can denote or overwrite the table. -/
theorem c10_counterexample :
    evalExpr (.var "__recipes__") [("__recipes__", some (.table []))] =
      .ok (.table []) ∧
    runSource 100
        "recipe Foo() { serve 0; } mix 1 into __recipes__; make Foo();" [] =
      (.error (.typeError "recipe lookup in a non-dict value"), ⟨[], ""⟩) :=
  ⟨rfl, rfl⟩

/-- Registration acts on the single `__recipes__` binding of the initial
environment exactly as `buildTable` acts on the table it holds. -/
theorem registerAll_singleton (rs : List Recipe) (t : Table) :
    registerAll rs [("__recipes__", some (.table t))] =
      [("__recipes__", some (.table (buildTable rs t)))] := by
  induction rs generalizing t with
  | nil => rfl
  | cons r rs ih =>
      simp only [registerAll, recipeEval, dictGet, dictSet, buildTable,
        if_pos rfl]
      exact ih _

/-- C10, amended: every environment binding holds the sentinel, an
integer, a string, or the procedure table; the table is not insulated
from programs: it sits in the environment under the program-visible
name `__recipes__`, where a `Var` expression reads it and a `mix`
assignment can both copy it into another variable and overwrite it. -/
theorem c10_amended :
    (∀ rs : List Recipe,
       evalExpr (.var "__recipes__")
           (registerAll rs [("__recipes__", some (.table []))]) =
         .ok (.table (buildTable rs []))) ∧
    runSource 100 "mix __recipes__ into y;" [] =
      (.ok [("__recipes__", some (.table [])), ("y", some (.table []))],
       ⟨[], ""⟩) ∧
    runSource 100 "mix 1 into __recipes__;" [] =
      (.ok [("__recipes__", some (.int 1))], ⟨[], ""⟩) := by
  refine ⟨?_, by rfl, by rfl⟩
  intro rs
  rw [registerAll_singleton]
  simp [evalExpr, dictGet]

/-- Writing key `k` makes `k` readable with the written value. -/
theorem dictGet_dictSet_self {α : Type} (d : List (String × α)) (k : String)
    (v : α) : dictGet (dictSet d k v) k = some v := by
  induction d with
  | nil => simp [dictGet, dictSet]
  | cons hd tl ih =>
      obtain ⟨k', w⟩ := hd
      by_cases h : k' = k <;> simp [dictGet, dictSet, h, ih]

/-- Writing key `k` does not change the value read at another key. -/
theorem dictGet_dictSet_ne {α : Type} (d : List (String × α))
    (k key : String) (v : α) (h : key ≠ k) :
    dictGet (dictSet d k v) key = dictGet d key := by
  have h' : k ≠ key := Ne.symm h
  induction d with
  | nil => simp [dictGet, dictSet, h']
  | cons hd tl ih =>
      obtain ⟨k', w⟩ := hd
      by_cases hk : k' = k
      · subst hk
        simp [dictGet, dictSet, h']
      · simp [dictGet, dictSet, hk, ih]

/-- Accumulating further definitions never removes a name from the
table. -/
theorem buildTable_keeps (rs : List Recipe) :
    ∀ (t : Table) (name : String),
      (dictGet t name).isSome → (dictGet (buildTable rs t) name).isSome := by
  induction rs with
  | nil => intro t name h; exact h
  | cons r rs ih =>
      intro t name h
      refine ih _ name ?_
      by_cases hn : name = r.name
      · subst hn; simp [dictGet_dictSet_self]
      · rwa [dictGet_dictSet_ne _ _ _ _ hn]

/-- Every recipe name occurring in the definition list is present in the
built table. -/
theorem buildTable_mem (rs : List Recipe) :
    ∀ (t : Table) (name : String),
      (∃ r ∈ rs, r.name = name) →
      (dictGet (buildTable rs t) name).isSome := by
  induction rs with
  | nil => intro t name h; simp at h
  | cons r rs ih =>
      intro t name h
      rcases h with ⟨r', hr', hname⟩
      rcases List.mem_cons.1 hr' with h1 | h1
      · subst h1; subst hname
        refine buildTable_keeps rs _ _ ?_
        simp [dictGet_dictSet_self]
      · exact ih _ name ⟨r', h1, hname⟩

/-- C5: all recipe definitions are registered in a pre-pass before any
top-level statement executes — the main statement list runs against an
environment already holding the full table built from every definition,
every defined name is found in that table regardless of textual order,
and the spec's forward-reference program (a `make Foo()` textually
before `recipe Foo`) succeeds end to end. -/
theorem c5_registration_prepass :
    (∀ (fuel : Nat) (p : Program) (fx : Effects),
       progEval fuel p fx =
         evalBlock fuel p.main
           [("__recipes__", some (.table (buildTable p.recipes [])))] fx) ∧
    (∀ (rs : List Recipe) (name : String),
       (∃ r ∈ rs, r.name = name) →
       (dictGet (buildTable rs []) name).isSome = true) ∧
    runSource 100 "make Foo(); recipe Foo() { serve 7; }" [] =
      (.ok [("__recipes__", some (.table [("Foo", ([], [.serve (.num 7)]))]))],
       ⟨[], "7\n"⟩) := by
  refine ⟨?_, ?_, by rfl⟩
  · intro fuel p fx
    unfold progEval
    rw [registerAll_singleton]
  · intro rs name h
    exact buildTable_mem rs [] name h

/-- C5, witness: a one-element definition list makes its name
present. -/
theorem c5_witness :
    (dictGet (buildTable [⟨"Foo", [], []⟩] []) "Foo").isSome = true :=
  c5_registration_prepass.2.1 [⟨"Foo", [], []⟩] "Foo"
    ⟨⟨"Foo", [], []⟩, by simp, rfl⟩

/-- C6: a recipe call that returns normally leaves the caller's
environment exactly as it was: the arguments are evaluated in the
caller's environment, the body runs in a fresh frame holding only the
shared table and the bound parameters, and that frame is discarded on
return; the end-to-end program shows the argument being evaluated
against the caller's binding (`x = 1`, argument `x + 1` passes `2`)
while the body's assignment to `x` does not leak back (`serve x` still
prints `1`). -/
theorem c6_frame_isolation :
    (∀ (fuel : Nat) (name : String) (args : List Expr) (env env' : Env)
       (fx fx' : Effects),
       evalStmt fuel (.make name args) env fx = (.ok env', fx') →
       env' = env) ∧
    (∀ (fuel : Nat) (name : String) (args : List Expr) (env : Env)
       (fx : Effects) (tbl : Table) (params : List String)
       (body : List Stmt),
       dictGet env "__recipes__" = some (some (.table tbl)) →
       dictGet tbl name = some (params, body) →
       params.length = args.length →
       evalStmt (fuel + 1) (.make name args) env fx =
         match evalArgs args env with
         | .error er => (.error er, fx)
         | .ok vals =>
             match evalBlock fuel body
                 (bindParams params vals
                   [("__recipes__", some (.table tbl))]) fx with
             | (.ok _, fx') => (.ok env, fx')
             | (.error er, fx') => (.error er, fx')) ∧
    runSource 100
        "mix 1 into x; recipe F(a) { mix a + 1 into x; serve a; } make F(x + 1); serve x;"
        [] =
      (.ok [("__recipes__", some (.table [("F", (["a"],
          [.mix (.binOp (.var "a") "+" (.num 1)) "x",
           .serve (.var "a")]))])),
        ("x", some (.int 1))],
       ⟨[], "2\n1\n"⟩) := by
  refine ⟨?_, ?_, by rfl⟩
  · intro fuel name args env env' fx fx' h
    match fuel with
    | 0 => simp [evalStmt] at h
    | f + 1 =>
        simp only [evalStmt] at h
        repeat' split at h
        all_goals simp_all
  · intro fuel name args env fx tbl params body h1 h2 h3
    simp [evalStmt, h1, h2, h3]

/-- C6, witness: calling a registered empty-bodied recipe returns the
caller's environment unchanged. -/
theorem c6_witness :
    ([("__recipes__", some (.table [("F", ([], []))]))] : Env) =
      [("__recipes__", some (.table [("F", ([], []))]))] :=
  c6_frame_isolation.1 10 "F" []
    [("__recipes__", some (.table [("F", ([], []))]))]
    [("__recipes__", some (.table [("F", ([], []))]))]
    ⟨[], ""⟩ ⟨[], ""⟩ rfl

/-- C7: a call whose argument count differs from the declared parameter
count fails with `ArityMismatch` before evaluating any argument or body
statement: the effects are exactly those before the call, and the
end-to-end program shows the body's `serve 9` never printing. -/
theorem c7_arity_mismatch :
    (∀ (fuel : Nat) (name : String) (args : List Expr) (env : Env)
       (fx : Effects) (tbl : Table) (params : List String)
       (body : List Stmt),
       dictGet env "__recipes__" = some (some (.table tbl)) →
       dictGet tbl name = some (params, body) →
       params.length ≠ args.length →
       evalStmt (fuel + 1) (.make name args) env fx =
         (.error (.arityMismatch name params.length args.length), fx)) ∧
    runSource 100 "recipe F(a) { serve 9; } make F();" [] =
      (.error (.arityMismatch "F" 1 0), ⟨[], ""⟩) := by
  refine ⟨?_, by rfl⟩
  intro fuel name args env fx tbl params body h1 h2 h3
  simp [evalStmt, h1, h2, h3]

/-- C7, witness: a one-parameter recipe called with no arguments. -/
theorem c7_witness :
    evalStmt 5 (.make "F" [])
        [("__recipes__", some (.table [("F", (["a"], []))]))] ⟨[], ""⟩ =
      (.error (.arityMismatch "F" 1 0), ⟨[], ""⟩) :=
  c7_arity_mismatch.1 4 "F" []
    [("__recipes__", some (.table [("F", (["a"], []))]))] ⟨[], ""⟩
    [("F", (["a"], []))] ["a"] [] rfl rfl (by decide)

/-- The members of `iterIdx lo n` are exactly the integers of the
half-open interval starting at `lo` of length `n`. -/
theorem mem_iterIdx (n : Nat) :
    ∀ (lo j : Int), j ∈ iterIdx lo n ↔ lo ≤ j ∧ j < lo + n := by
  induction n with
  | zero => intro lo j; simp [iterIdx]
  | succ n ih => intro lo j; simp [iterIdx, ih]; omega

/-- `iterIdx` is strictly ascending. -/
theorem iterIdx_pairwise (n : Nat) :
    ∀ lo : Int, (iterIdx lo n).Pairwise (· < ·) := by
  induction n with
  | zero => intro lo; simp [iterIdx]
  | succ n ih =>
      intro lo
      refine List.pairwise_cons.2 ⟨fun j hj => ?_, ih (lo + 1)⟩
      have := (mem_iterIdx n (lo + 1) j).1 hj
      omega

/-- The `range` loop of `RepeatStmt.eval` is the reference loop over the
ascending index list. -/
theorem evalRepeat_eq_runIters (n : Nat) :
    ∀ (fuel : Nat) (body : List Stmt) (lo : Int) (env : Env) (fx : Effects),
      evalRepeat fuel body lo n env fx =
        runIters fuel body (iterIdx lo n) env fx := by
  induction n with
  | zero =>
      intro fuel body lo env fx
      cases fuel <;> simp [evalRepeat, runIters, iterIdx]
  | succ n ih =>
      intro fuel body lo env fx
      cases fuel with
      | zero => simp [evalRepeat, runIters, iterIdx]
      | succ f =>
          simp only [evalRepeat, runIters, iterIdx]
          rcases hb : evalBlock f body (dictSet env "i" (some (.int lo))) fx
            with ⟨r, fx'⟩
          cases r <;> simp [hb, ih]

/-- C4: a repeat statement whose bounds evaluate to integers `lo` and
`hi` runs its body once per index in `iterIdx lo ((hi+1-lo).toNat)` —
the list of exactly the integers from `lo` to `hi` inclusive, in
strictly ascending order (empty when `lo > hi`) — binding `i` in the
current environment before each iteration; end to end,
`repeat 1 to 3 { serve i; }` prints `1 2 3` on separate lines and
leaves `i = 3` bound after the loop, while `repeat 5 to 1` prints
nothing. -/
theorem c4_repeat_loop :
    (∀ (fuel : Nat) (startE stopE : Expr) (body : List Stmt) (env : Env)
       (fx : Effects) (lo hi : Int),
       evalExpr startE env = .ok (.int lo) →
       evalExpr stopE env = .ok (.int hi) →
       evalStmt (fuel + 1) (.repeatS startE stopE body) env fx =
         runIters fuel body (iterIdx lo ((hi + 1 - lo).toNat)) env fx) ∧
    (∀ lo hi j : Int,
       j ∈ iterIdx lo ((hi + 1 - lo).toNat) ↔ lo ≤ j ∧ j ≤ hi) ∧
    (∀ lo hi : Int,
       (iterIdx lo ((hi + 1 - lo).toNat)).Pairwise (· < ·)) ∧
    runSource 100 "repeat 1 to 3 { serve i; }" [] =
      (.ok [("__recipes__", some (.table [])), ("i", some (.int 3))],
       ⟨[], "1\n2\n3\n"⟩) ∧
    runSource 100 "repeat 5 to 1 { serve i; }" [] =
      (.ok [("__recipes__", some (.table []))], ⟨[], ""⟩) := by
  refine ⟨?_, ?_, ?_, by rfl, by rfl⟩
  · intro fuel startE stopE body env fx lo hi h1 h2
    simp [evalStmt, h1, h2, evalRepeat_eq_runIters]
  · intro lo hi j
    rw [mem_iterIdx]
    omega
  · intro lo hi
    exact iterIdx_pairwise _ lo

/-- C4, witness: a two-iteration loop with an empty body dispatches to
the reference loop over `[1, 2]`. -/
theorem c4_witness :
    evalStmt 6 (.repeatS (.num 1) (.num 2) []) [] ⟨[], ""⟩ =
      runIters 5 [] (iterIdx 1 (((2 : Int) + 1 - 1).toNat)) [] ⟨[], ""⟩ :=
  c4_repeat_loop.1 5 (.num 1) (.num 2) [] [] ⟨[], ""⟩ 1 2 rfl rfl

end BakeLang
